import Mathlib

/-!
A shallow embedding of `src/arena_allocator.h`: a fixed-capacity bump-pointer
arena `template <size_t Capacity> class Arena`.

Addresses, offsets and sizes are natural numbers.  The arena state carries
the (fixed) address `base` of the backing buffer `m_buffer`, the used offset
`m_used`, the debug ledger `m_allocations` and the byte contents of the
buffer as a function from offsets to byte values.  A call
`allocate<T>(args...)` is embedded as `allocate al sz ty init` where
`al = alignof(T)`, `sz = sizeof(T)`, `ty = typeid(T).name()` and `init i`
is the byte the placement-new constructor writes at offset `i` of the
object.  The returned `T*` is the address of the object, `nullptr` is
`none`.  `ArenaND`/`allocateND` embed the non-DEBUG build, in which the
ledger member does not exist.
-/

namespace ArenaAlloc

/-- One record of the debug ledger, `struct AllocationInfo`: the object's
address, its byte size and the type's name. -/
structure AllocationInfo where
  address : Nat
  size : Nat
  type_name : String
deriving DecidableEq

/-- The DEBUG build of `Arena<Capacity>`: the buffer's address, the used
offset, the ledger and the buffer's byte contents (indexed by offset). -/
structure Arena (Capacity : Nat) where
  base : Nat
  m_used : Nat
  m_allocations : List AllocationInfo
  buffer : Nat → Nat

/-- The non-DEBUG build of `Arena<Capacity>`: no ledger member. -/
structure ArenaND (Capacity : Nat) where
  base : Nat
  m_used : Nat
  buffer : Nat → Nat

/-- The padding of source line 41:
`(alignment - (cur_addr % alignment)) % alignment`. -/
def pad (alignment addr : Nat) : Nat :=
  (alignment - addr % alignment) % alignment

/-- `Arena::allocate<T>(args...)` of the DEBUG build (source lines 38-56):
compute the padding from the current cursor address `m_buffer + m_used`,
return `nullptr` when `m_used + padding + sizeof(T) > Capacity`, otherwise
advance `m_used` by the padding, take the object's address there, advance
`m_used` by `sizeof(T)`, append a ledger record and construct the object in
place (the constructor writes `init i` at object offset `i`). -/
def allocate {C : Nat} (al sz : Nat) (ty : String) (init : Nat → Nat)
    (a : Arena C) : Option Nat × Arena C :=
  let cur_addr := a.base + a.m_used
  let padding := pad al cur_addr
  if a.m_used + padding + sz > C then
    (none, a)
  else
    let used1 := a.m_used + padding
    let memory := a.base + used1
    let used2 := used1 + sz
    (some memory,
      { a with
          m_used := used2
          m_allocations := a.m_allocations ++ [⟨memory, sz, ty⟩]
          buffer := fun i => if used1 ≤ i ∧ i < used2 then init i else a.buffer i })

/-- `Arena::allocate<T>` of the non-DEBUG build: the same code without the
`m_allocations.push_back` line. -/
def allocateND {C : Nat} (al sz : Nat) (init : Nat → Nat)
    (a : ArenaND C) : Option Nat × ArenaND C :=
  let cur_addr := a.base + a.m_used
  let padding := pad al cur_addr
  if a.m_used + padding + sz > C then
    (none, a)
  else
    let used1 := a.m_used + padding
    let memory := a.base + used1
    let used2 := used1 + sz
    (some memory,
      { a with
          m_used := used2
          buffer := fun i => if used1 ≤ i ∧ i < used2 then init i else a.buffer i })

/-- `Arena::reset()` (source lines 58-60): set `m_used` to 0.  The source
touches nothing else; in particular it does not clear `m_allocations`. -/
def reset {C : Nat} (a : Arena C) : Arena C :=
  { a with m_used := 0 }

/-- `Arena::reset()` of the non-DEBUG build. -/
def resetND {C : Nat} (a : ArenaND C) : ArenaND C :=
  { a with m_used := 0 }

/-- A freshly constructed `Arena<Capacity>` whose buffer lives at address
`base`: `m_used` starts at 0 and the ledger empty (the buffer's initial
contents are not observable; zero stands for them). -/
def mkArena (Capacity base : Nat) : Arena Capacity :=
  ⟨base, 0, [], fun _ => 0⟩

/-- A freshly constructed non-DEBUG `Arena<Capacity>`. -/
def mkArenaND (Capacity base : Nat) : ArenaND Capacity :=
  ⟨base, 0, fun _ => 0⟩

/-- Forget the ledger: the common part of the DEBUG and non-DEBUG states. -/
def erase {C : Nat} (a : Arena C) : ArenaND C :=
  ⟨a.base, a.m_used, a.buffer⟩

/-- One call a client can make on the arena: an `allocate<T>` (given by
alignment, size, type name and constructed bytes) or a `reset`. -/
inductive Op where
  | alloc (al sz : Nat) (ty : String) (init : Nat → Nat)
  | reset

/-- Run one call on the DEBUG arena, keeping only the state. -/
def runOp {C : Nat} (a : Arena C) : Op → Arena C
  | Op.alloc al sz ty init => (allocate al sz ty init a).2
  | Op.reset => reset a

/-- Run a sequence of calls on the DEBUG arena, keeping only the state. -/
def run {C : Nat} (a : Arena C) (ops : List Op) : Arena C :=
  ops.foldl runOp a

/-- Run a sequence of calls on the DEBUG arena, collecting the pointer each
`allocate` returns. -/
def runOut {C : Nat} (a : Arena C) : List Op → List (Option Nat) × Arena C
  | [] => ([], a)
  | Op.alloc al sz ty init :: rest =>
      let r := allocate al sz ty init a
      let s := runOut r.2 rest
      (r.1 :: s.1, s.2)
  | Op.reset :: rest => runOut (reset a) rest

/-- Run a sequence of calls on the non-DEBUG arena, collecting the pointer
each `allocate` returns (the type name of an `alloc` is unused there). -/
def runOutND {C : Nat} (a : ArenaND C) : List Op → List (Option Nat) × ArenaND C
  | [] => ([], a)
  | Op.alloc al sz _ init :: rest =>
      let r := allocateND al sz init a
      let s := runOutND r.2 rest
      (r.1 :: s.1, s.2)
  | Op.reset :: rest => runOutND (resetND a) rest

/-- The empty type name, for allocation requests where the tag is
irrelevant. -/
def noTag : String := ""

/-- Run a list of allocation requests `(alignof(T), sizeof(T))` with no
intervening reset, collecting the returned pointers. -/
def allocRun {C : Nat} (a : Arena C) : List (Nat × Nat) → List (Option Nat) × Arena C
  | [] => ([], a)
  | (al, sz) :: rest =>
      let r := allocate al sz noTag (fun _ => 0) a
      let s := allocRun r.2 rest
      (r.1 :: s.1, s.2)

/-- The cumulative padded size of a request list: starting from offset
`used`, add each request's padding (computed from the then-current cursor
address) and size, with no capacity check. -/
def cumPadded (base : Nat) (used : Nat) : List (Nat × Nat) → Nat
  | [] => used
  | (al, sz) :: rest => cumPadded base (used + pad al (base + used) + sz) rest

/-- One region line of `Arena::display_map()` (source lines 63-103): a
padding gap, an allocation (offset, type tag, size), or the trailing free
space.  The fixed header text the function also prints carries no state
and is elided. -/
inductive MapLine where
  | padLine (offset size : Nat)
  | allocLine (offset : Nat) (type_name : String) (size : Nat)
  | freeLine (offset size : Nat)
deriving DecidableEq

/-- Whether a `display_map` line is the free-space line. -/
def isFreeLine : MapLine → Bool
  | MapLine.freeLine _ _ => true
  | _ => false

/-- One iteration of the `display_map` loop (source lines 74-93): from
`last_offset` (one past the previous record's end) and the lines printed
so far, print a padding gap if the record starts past `last_offset`, then
the record's own line. -/
def mapStep (base : Nat) (acc : Nat × List MapLine) (r : AllocationInfo) :
    Nat × List MapLine :=
  let current_offset := r.address - base
  let gap :=
    if current_offset > acc.1 then
      [MapLine.padLine acc.1 (current_offset - acc.1)]
    else []
  (current_offset + r.size,
    acc.2 ++ gap ++ [MapLine.allocLine current_offset r.type_name r.size])

/-- `Arena::display_map()` of the DEBUG build, as the list of region lines
it prints: the loop over the ledger starting from `last_offset = 0`,
then — only when `m_used < Capacity` (source line 97) — the free-space
line. -/
def display_map {C : Nat} (a : Arena C) : List MapLine :=
  (a.m_allocations.foldl (mapStep a.base) (0, [])).2
    ++ (if a.m_used < C then [MapLine.freeLine a.m_used (C - a.m_used)] else [])

/-- The claim's reading of the memory-map body, written as a recursion: in
ledger order, a padding-gap line wherever the previous record's end
`last_offset` is below the next record's start, then one line per record
with its offset, type tag and size. -/
def specLines (base last_offset : Nat) : List AllocationInfo → List MapLine
  | [] => []
  | r :: rest =>
      (if last_offset < r.address - base then
          [MapLine.padLine last_offset (r.address - base - last_offset)]
        else [])
        ++ MapLine.allocLine (r.address - base) r.type_name r.size
          :: specLines base (r.address - base + r.size) rest

/-- The ledger invariant an allocate-only run maintains: every record lies
between the buffer's start and the current cursor, and the records' byte
regions are ordered left to right in ledger order. -/
def LedgerInv {C : Nat} (a : Arena C) : Prop :=
  (∀ r ∈ a.m_allocations,
      a.base ≤ r.address ∧ r.address + r.size ≤ a.base + a.m_used) ∧
    List.Pairwise (fun r s : AllocationInfo => r.address + r.size ≤ s.address)
      a.m_allocations

/-- The type tag of the 4-byte, 4-aligned value of the spec's concrete
scenario. -/
def tagA : String := "A"

/-- The type tag of the 8-byte, 8-aligned value of the spec's concrete
scenario. -/
def tagB : String := "B"

/-- The type tag of the 50-byte, 1-aligned value of the spec's concrete
scenario. -/
def tagC : String := "C"

/-- The type tag of the allocation that fills the arena in the C8
counterexample. -/
def tagX : String := "X"

/-- The type tag of the counterexample allocation kept by the ledger across
a reset. -/
def tagY : String := "Y"

/-- Scenario step 1: allocate the 4-byte, 4-aligned value A on a fresh
64-byte arena whose buffer lives at address 16 (a `max_align_t`-aligned
address). -/
def c7_a1 : Option Nat × Arena 64 :=
  allocate 4 4 tagA (fun _ => 0) (mkArena 64 16)

/-- Scenario step 2: allocate the 8-byte, 8-aligned value B. -/
def c7_a2 : Option Nat × Arena 64 :=
  allocate 8 8 tagB (fun _ => 0) c7_a1.2

/-- Scenario step 3: allocate the 50-byte, 1-aligned value C. -/
def c7_a3 : Option Nat × Arena 64 :=
  allocate 1 50 tagC (fun _ => 0) c7_a2.2

/-- Scenario step 4: reset the arena. -/
def c7_a4 : Arena 64 :=
  reset c7_a3.2

/-- Scenario step 5: allocate A again. -/
def c7_a5 : Option Nat × Arena 64 :=
  allocate 4 4 tagA (fun _ => 0) c7_a4

/-- The padding really aligns the cursor: adding `pad al c` to the address
`c` lands on a multiple of the (positive) alignment `al`. -/
theorem pad_aligns (al c : Nat) (h : 0 < al) : (c + pad al c) % al = 0 := by
  unfold pad
  by_cases h0 : c % al = 0
  · rw [h0, Nat.sub_zero, Nat.mod_self, Nat.add_zero]
    exact h0
  · have hlt : c % al < al := Nat.mod_lt c h
    have hsub : (al - c % al) % al = al - c % al := Nat.mod_eq_of_lt (by omega)
    rw [hsub]
    have hdm := Nat.div_add_mod c al
    set A := al * (c / al) with hA
    have hkey : c + (al - c % al) = A + al := by omega
    rw [hkey, hA, ← Nat.mul_succ]
    exact Nat.mul_mod_right al _

/-- When the capacity check passes, `allocate` returns the padded cursor
address, advances `m_used` past the padding and the object, keeps the
buffer's address and appends one ledger record. -/
theorem allocate_of_le {C : Nat} (al sz : Nat) (ty : String) (init : Nat → Nat)
    (a : Arena C) (h : a.m_used + pad al (a.base + a.m_used) + sz ≤ C) :
    (allocate al sz ty init a).1
        = some (a.base + (a.m_used + pad al (a.base + a.m_used))) ∧
      (allocate al sz ty init a).2.m_used
        = a.m_used + pad al (a.base + a.m_used) + sz ∧
      (allocate al sz ty init a).2.base = a.base ∧
      (allocate al sz ty init a).2.m_allocations
        = a.m_allocations ++
            [⟨a.base + (a.m_used + pad al (a.base + a.m_used)), sz, ty⟩] := by
  simp only [allocate]
  rw [if_neg (by omega)]
  exact ⟨rfl, rfl, rfl, rfl⟩

/-- When the capacity check fails, `allocate` returns `nullptr` and leaves
the whole state untouched. -/
theorem allocate_of_gt {C : Nat} (al sz : Nat) (ty : String) (init : Nat → Nat)
    (a : Arena C) (h : a.m_used + pad al (a.base + a.m_used) + sz > C) :
    (allocate al sz ty init a).1 = none ∧ (allocate al sz ty init a).2 = a := by
  simp only [allocate]
  rw [if_pos (by omega)]
  exact ⟨rfl, rfl⟩

/-- `allocate` never decreases `m_used`. -/
theorem allocate_used_mono {C : Nat} (al sz : Nat) (ty : String)
    (init : Nat → Nat) (a : Arena C) :
    a.m_used ≤ (allocate al sz ty init a).2.m_used := by
  simp only [allocate]
  split
  · exact Nat.le_refl _
  · show a.m_used ≤ a.m_used + pad al (a.base + a.m_used) + sz
    omega

/-- `allocate` keeps `m_used` within the capacity: the successful branch
checked `m_used + padding + sz ≤ C` first, the failing branch mutates
nothing. -/
theorem allocate_used_le {C : Nat} (al sz : Nat) (ty : String)
    (init : Nat → Nat) (a : Arena C) (h : a.m_used ≤ C) :
    (allocate al sz ty init a).2.m_used ≤ C := by
  simp only [allocate]
  split
  · exact h
  · show a.m_used + pad al (a.base + a.m_used) + sz ≤ C
    omega

/-- `allocate` never changes the buffer's address. -/
theorem allocate_base {C : Nat} (al sz : Nat) (ty : String)
    (init : Nat → Nat) (a : Arena C) :
    (allocate al sz ty init a).2.base = a.base := by
  simp only [allocate]
  split
  · rfl
  · rfl

/-- C1: if `allocate<T>` fails — returns `nullptr` — then the capacity
check `used + padding + sizeof(T) > capacity` held and the arena's
`m_used` after the call equals its value before the call exactly: no
partial mutation occurs on the failure path. -/
theorem C1_alloc_fail_atomic {C : Nat} (al sz : Nat) (ty : String)
    (init : Nat → Nat) (a : Arena C)
    (h : (allocate al sz ty init a).1 = none) :
    (allocate al sz ty init a).2.m_used = a.m_used ∧
      a.m_used + pad al (a.base + a.m_used) + sz > C := by
  by_cases hc : a.m_used + pad al (a.base + a.m_used) + sz > C
  · exact ⟨by rw [(allocate_of_gt al sz ty init a hc).2], hc⟩
  · rw [(allocate_of_le al sz ty init a (by omega)).1] at h
    exact absurd h (by simp)

/-- C1 at a concrete input: an 8-byte request on a fresh 4-byte arena at
base address 16 fails and leaves `m_used` unchanged. -/
theorem C1_alloc_fail_atomic_witness :
    (allocate 1 8 noTag (fun _ => 0) (mkArena 4 16)).2.m_used
        = (mkArena 4 16).m_used ∧
      (mkArena 4 16).m_used
          + pad 1 ((mkArena 4 16).base + (mkArena 4 16).m_used) + 8 > 4 :=
  C1_alloc_fail_atomic 1 8 noTag (fun _ => 0) (mkArena 4 16) (by decide)

/-- C7: the spec's concrete scenario on a 64-byte arena based at address
16.  A lands at offset 0 (address 16 + 0) with `used = 4`; B needs 4 bytes
of padding, lands at offset 8 (address 16 + 8) with `used = 16`; the
50-byte C fails and `used` stays 16; `reset` brings `used` to 0; and
allocating A again lands at offset 0 with `used = 4`, identical to the
first allocation. -/
theorem C7_scenario :
    c7_a1.1 = some (16 + 0) ∧ c7_a1.2.m_used = 4 ∧
      pad 8 (16 + 4) = 4 ∧ c7_a2.1 = some (16 + 8) ∧ c7_a2.2.m_used = 16 ∧
      c7_a3.1 = none ∧ c7_a3.2.m_used = 16 ∧
      c7_a4.m_used = 0 ∧
      c7_a5.1 = some (16 + 0) ∧ c7_a5.2.m_used = 4 := by
  decide

/-- C2: for a type whose alignment `al = 2 ^ j` does not exceed the
buffer's base alignment — `alignas(max_align_t)` makes the base address a
multiple of `2 ^ m` with `j ≤ m` — a successful `allocate<T>` places the
object at offset `used + padding` with
`padding = (al - ((base + used) % al)) % al` (the returned address is
`base` plus that offset and is a multiple of `alignof(T)`) and leaves the
new `m_used` equal to `used + padding + sizeof(T)`.  The base-alignment
precondition is the claim's; the padding formula in fact aligns the
absolute address for any positive alignment. -/
theorem C2_success_aligned {C : Nat} (al sz : Nat) (ty : String)
    (init : Nat → Nat) (a : Arena C) (j m addr : Nat)
    (hal : al = 2 ^ j) (_hbase : 2 ^ m ∣ a.base) (_hjm : j ≤ m)
    (h : (allocate al sz ty init a).1 = some addr) :
    addr = a.base + (a.m_used + pad al (a.base + a.m_used)) ∧
      addr % al = 0 ∧
      (allocate al sz ty init a).2.m_used
        = a.m_used + pad al (a.base + a.m_used) + sz := by
  have hpos : 0 < al := hal ▸ pow_pos (by norm_num) j
  by_cases hc : a.m_used + pad al (a.base + a.m_used) + sz > C
  · rw [(allocate_of_gt al sz ty init a hc).1] at h
    exact absurd h (by simp)
  · obtain ⟨h1, h2, _, _⟩ := allocate_of_le al sz ty init a (by omega)
    rw [h1] at h
    have haddr : addr = a.base + (a.m_used + pad al (a.base + a.m_used)) :=
      (Option.some_injective _ h).symm
    refine ⟨haddr, ?_, h2⟩
    rw [haddr, ← Nat.add_assoc]
    exact pad_aligns al (a.base + a.m_used) hpos

/-- C2 at a concrete input: on a fresh 64-byte arena based at address 16
(a multiple of `2 ^ 4 = 16`), a 4-byte, 4-aligned allocation succeeds at
address 16, which is offset `0 + pad 4 16`, is 4-aligned, and leaves
`m_used = 0 + pad 4 16 + 4`. -/
theorem C2_success_aligned_witness :
    (16 : Nat) = 16 + (0 + pad 4 (16 + 0)) ∧ (16 : Nat) % 4 = 0 ∧
      (allocate 4 4 tagA (fun _ => 0) (mkArena 64 16)).2.m_used
        = 0 + pad 4 (16 + 0) + 4 :=
  C2_success_aligned 4 4 tagA (fun _ => 0) (mkArena 64 16) 2 4 16 rfl
    ⟨1, rfl⟩ (by norm_num) (by decide)

/-- C3: in every state reachable from a fresh arena by any sequence of
`allocate` and `reset` calls, the invariant `0 ≤ used ≤ capacity` holds;
and `allocate` never decreases `m_used` (so `used` is monotonically
non-decreasing across `allocate` calls within a generation and only
`reset` ever rewinds it). -/
theorem C3_used_invariant (C base : Nat) (ops : List Op) :
    0 ≤ (run (mkArena C base) ops).m_used ∧
      (run (mkArena C base) ops).m_used ≤ C ∧
      ∀ (a : Arena C) (al sz : Nat) (ty : String) (init : Nat → Nat),
        a.m_used ≤ (allocate al sz ty init a).2.m_used := by
  refine ⟨Nat.zero_le _, ?_, fun a al sz ty init => allocate_used_mono al sz ty init a⟩
  have key : ∀ (l : List Op) (a : Arena C), a.m_used ≤ C → (run a l).m_used ≤ C := by
    intro l
    induction l with
    | nil => intro a h; exact h
    | cons op rest ih =>
        intro a h
        cases op with
        | alloc al sz ty init => exact ih _ (allocate_used_le al sz ty init a h)
        | reset => exact ih _ (Nat.zero_le _)
  exact key ops (mkArena C base) (Nat.zero_le _)

/-- C5 counterexample: allocate a 2-byte object tagged Y on a fresh 4-byte
arena, then `reset()`.  Afterwards `m_used` is 0 but the ledger still
holds the record of the previous generation's allocation: the source's
`reset` never clears `m_allocations`, so the claim that after reset the
ledger contains no records from the previous generation is false. -/
theorem C5_cex_ledger_survives_reset :
    (reset (allocate 1 2 tagY (fun _ => 0) (mkArena 4 16)).2).m_used = 0 ∧
      (reset (allocate 1 2 tagY (fun _ => 0) (mkArena 4 16)).2).m_allocations
        = [⟨16, 2, tagY⟩] := by
  decide

/-- C5 (amended): after any sequence of calls, a `reset()` unconditionally
sets `m_used` to 0 — but it leaves the allocation ledger exactly as it
was, records of the previous generation included: the source's `reset`
only assigns `m_used = 0` and never clears `m_allocations`. -/
theorem C5_reset_zeroes_used_keeps_ledger (C : Nat) (a : Arena C) (ops : List Op) :
    (run a (ops ++ [Op.reset])).m_used = 0 ∧
      (run a (ops ++ [Op.reset])).m_allocations = (run a ops).m_allocations := by
  simp [run, List.foldl_append, runOp, reset]

/-- Unfolding equation of `cumPadded` on a non-empty request list. -/
theorem cumPadded_cons (base used al sz : Nat) (rest : List (Nat × Nat)) :
    cumPadded base used ((al, sz) :: rest)
      = cumPadded base (used + pad al (base + used) + sz) rest := rfl

/-- Unfolding equation of `allocRun` on a non-empty request list. -/
theorem allocRun_cons {C : Nat} (a : Arena C) (al sz : Nat)
    (rest : List (Nat × Nat)) :
    allocRun a ((al, sz) :: rest)
      = ((allocate al sz noTag (fun _ => 0) a).1
            :: (allocRun (allocate al sz noTag (fun _ => 0) a).2 rest).1,
          (allocRun (allocate al sz noTag (fun _ => 0) a).2 rest).2) := rfl

/-- The starting offset is a lower bound of the cumulative padded size. -/
theorem cumPadded_le (base : Nat) (l : List (Nat × Nat)) :
    ∀ used : Nat, used ≤ cumPadded base used l := by
  induction l with
  | nil => intro used; exact Nat.le_refl _
  | cons p rest ih =>
      intro used
      obtain ⟨al, sz⟩ := p
      rw [cumPadded_cons]
      exact Nat.le_trans (by omega) (ih _)

/-- If the cumulative padded size of a request list stays within the
capacity, every request of the checked run succeeds and the final `m_used`
is exactly that cumulative size (and the buffer's address never moves). -/
theorem allocRun_cum {C : Nat} (l : List (Nat × Nat)) :
    ∀ a : Arena C, cumPadded a.base a.m_used l ≤ C →
      (∀ r ∈ (allocRun a l).1, r.isSome = true) ∧
        (allocRun a l).2.m_used = cumPadded a.base a.m_used l ∧
        (allocRun a l).2.base = a.base := by
  induction l with
  | nil =>
      intro a _
      exact ⟨fun r hr => absurd hr (List.not_mem_nil r), rfl, rfl⟩
  | cons p rest ih =>
      intro a h
      obtain ⟨al, sz⟩ := p
      rw [cumPadded_cons] at h
      have hstep : a.m_used + pad al (a.base + a.m_used) + sz ≤ C :=
        Nat.le_trans (cumPadded_le _ _ _) h
      obtain ⟨h1, h2, h3, _⟩ := allocate_of_le al sz noTag (fun _ => 0) a hstep
      have hih := ih (allocate al sz noTag (fun _ => 0) a).2 (by rw [h2, h3]; exact h)
      rw [allocRun_cons, cumPadded_cons]
      refine ⟨?_, ?_, ?_⟩
      · intro r hr
        rcases List.mem_cons.1 hr with hhead | htail
        · rw [hhead, h1]; rfl
        · exact hih.1 r htail
      · rw [hih.2.1, h2, h3]
      · rw [hih.2.2, h3]

/-- C4: for capacity `C`, a request sequence whose cumulative padded sizes
sum to exactly `C` succeeds in full — an exact fit with
`used + padding + sizeof(T) = C` is a success, not a failure — and from
the resulting full arena any further allocation of a positive size
fails. -/
theorem C4_exact_fit (C base : Nat) (reqs : List (Nat × Nat))
    (h : cumPadded base 0 reqs = C) :
    (∀ r ∈ (allocRun (mkArena C base) reqs).1, r.isSome = true) ∧
      (allocRun (mkArena C base) reqs).2.m_used = C ∧
      ∀ al sz : Nat, 0 < sz →
        (allocate al sz noTag (fun _ => 0)
            (allocRun (mkArena C base) reqs).2).1 = none := by
  have hcum : cumPadded (mkArena C base).base (mkArena C base).m_used reqs ≤ C := by
    show cumPadded base 0 reqs ≤ C
    omega
  obtain ⟨hall, hused, _⟩ := allocRun_cum reqs (mkArena C base) hcum
  have husedC : (allocRun (mkArena C base) reqs).2.m_used = C := by
    rw [hused]; exact h
  refine ⟨hall, husedC, ?_⟩
  intro al sz hsz
  refine (allocate_of_gt al sz noTag (fun _ => 0) _ ?_).1
  rw [husedC]
  omega

/-- C4 at a concrete input: on a fresh 8-byte arena based at address 16,
the requests (align 1, size 3) then (align 4, size 4) have cumulative
padded size 3 + (1 + 4) = 8, so both succeed, the arena ends exactly
full, and any further positive-size request fails. -/
theorem C4_exact_fit_witness :
    (∀ r ∈ (allocRun (mkArena 8 16) [(1, 3), (4, 4)]).1, r.isSome = true) ∧
      (allocRun (mkArena 8 16) [(1, 3), (4, 4)]).2.m_used = 8 ∧
      ∀ al sz : Nat, 0 < sz →
        (allocate al sz noTag (fun _ => 0)
            (allocRun (mkArena 8 16) [(1, 3), (4, 4)]).2).1 = none :=
  C4_exact_fit 8 16 [(1, 3), (4, 4)] (by decide)

/-- `allocate` preserves the ledger invariant: a new record starts at the
padded cursor, past the end of every earlier record. -/
theorem LedgerInv_allocate {C : Nat} (al sz : Nat) (ty : String)
    (init : Nat → Nat) (a : Arena C) (hinv : LedgerInv a) :
    LedgerInv (allocate al sz ty init a).2 := by
  by_cases hc : a.m_used + pad al (a.base + a.m_used) + sz > C
  · rw [(allocate_of_gt al sz ty init a hc).2]
    exact hinv
  · obtain ⟨_, h2, h3, h4⟩ := allocate_of_le al sz ty init a (by omega)
    obtain ⟨hin, hpw⟩ := hinv
    constructor
    · intro r hr
      rw [h4] at hr
      rw [h2, h3]
      rcases List.mem_append.1 hr with hold | hnew
      · obtain ⟨ha, hb⟩ := hin r hold
        exact ⟨ha, by omega⟩
      · have he := List.mem_singleton.1 hnew
        subst he
        refine ⟨?_, ?_⟩
        · show a.base ≤ a.base + (a.m_used + pad al (a.base + a.m_used))
          omega
        · show a.base + (a.m_used + pad al (a.base + a.m_used)) + sz
              ≤ a.base + (a.m_used + pad al (a.base + a.m_used) + sz)
          omega
    · rw [h4, List.pairwise_append]
      refine ⟨hpw, List.pairwise_singleton _ _, ?_⟩
      intro x hx y hy
      rw [List.mem_singleton.1 hy]
      obtain ⟨_, hb⟩ := hin x hx
      show x.address + x.size ≤ a.base + (a.m_used + pad al (a.base + a.m_used))
      omega

/-- An allocate-only run preserves the ledger invariant, keeps `m_used`
within the capacity and never moves the buffer. -/
theorem allocRun_inv {C : Nat} (l : List (Nat × Nat)) :
    ∀ a : Arena C, LedgerInv a → a.m_used ≤ C →
      LedgerInv (allocRun a l).2 ∧ (allocRun a l).2.m_used ≤ C ∧
        (allocRun a l).2.base = a.base := by
  induction l with
  | nil => intro a h1 h2; exact ⟨h1, h2, rfl⟩
  | cons p rest ih =>
      intro a h1 h2
      obtain ⟨al, sz⟩ := p
      have hih := ih (allocate al sz noTag (fun _ => 0) a).2
        (LedgerInv_allocate _ _ _ _ _ h1) (allocate_used_le _ _ _ _ _ h2)
      rw [allocRun_cons]
      exact ⟨hih.1, hih.2.1, by rw [hih.2.2, allocate_base]⟩

/-- C6: along any sequence of allocations with no intervening reset,
every successful allocation's byte region (as recorded in the ledger)
lies within offsets `[0, capacity)` of the buffer, and the regions of any
two recorded allocations of the generation are disjoint. -/
theorem C6_regions_disjoint (C base : Nat) (reqs : List (Nat × Nat)) :
    (∀ r ∈ (allocRun (mkArena C base) reqs).2.m_allocations,
        base ≤ r.address ∧ r.address - base + r.size ≤ C) ∧
      List.Pairwise
        (fun r s : AllocationInfo =>
          r.address + r.size ≤ s.address ∨ s.address + s.size ≤ r.address)
        (allocRun (mkArena C base) reqs).2.m_allocations := by
  have hfresh : LedgerInv (mkArena C base) :=
    ⟨fun r hr => absurd hr (List.not_mem_nil r), List.Pairwise.nil⟩
  obtain ⟨⟨hin, hpw⟩, hle, hb⟩ :=
    allocRun_inv reqs (mkArena C base) hfresh (Nat.zero_le C)
  have hbb : (allocRun (mkArena C base) reqs).2.base = base := hb
  constructor
  · intro r hr
    obtain ⟨ha, hb2⟩ := hin r hr
    rw [hbb] at ha hb2
    exact ⟨ha, by omega⟩
  · exact hpw.imp (fun h => Or.inl h)

/-- The `display_map` loop equals the recursive reading of the map body,
whatever offset and lines it starts from. -/
theorem foldl_mapStep_spec (base : Nat) (l : List AllocationInfo) :
    ∀ (last : Nat) (acc : List MapLine),
      (l.foldl (mapStep base) (last, acc)).2 = acc ++ specLines base last l := by
  induction l with
  | nil => intro last acc; simp [specLines]
  | cons r rest ih =>
      intro last acc
      rw [List.foldl_cons]
      rw [show mapStep base (last, acc) r
            = (r.address - base + r.size,
                acc ++ (if last < r.address - base then
                    [MapLine.padLine last (r.address - base - last)]
                  else [])
                  ++ [MapLine.allocLine (r.address - base) r.type_name r.size])
          from rfl]
      rw [ih]
      simp [specLines, List.append_assoc]

/-- C8 counterexample: fill a fresh 4-byte arena (based at 16) with one
4-byte, 1-aligned allocation, so that `used = capacity`.  The rendered map
is the single allocation line — it does not end with a free-space entry,
because source line 97 prints one only when `m_used < Capacity`.  This
refutes the claim that the rendering always ends with a trailing
free-space entry. -/
theorem C8_cex_full_arena_no_free_line :
    display_map (allocate 1 4 tagX (fun _ => 0) (mkArena 4 16)).2
        = [MapLine.allocLine 0 tagX 4] ∧
      (display_map (allocate 1 4 tagX (fun _ => 0) (mkArena 4 16)).2).any
          isFreeLine = false := by
  decide

/-- C8 (amended): for every arena state, `display_map` renders, in ledger
order, a padding-gap line wherever the previous recorded allocation's end
is below the next allocation's start and one line per recorded allocation
with its offset, type tag and size; it ends with a trailing free-space
entry covering `[used, capacity)` exactly when `used < capacity`, and
emits no free-space entry when `used = capacity`. -/
theorem C8_map_lines (C : Nat) (a : Arena C) :
    display_map a
      = specLines a.base 0 a.m_allocations
          ++ (if a.m_used < C then [MapLine.freeLine a.m_used (C - a.m_used)]
              else []) := by
  unfold display_map
  rw [foldl_mapStep_spec]
  simp

/-- One `allocate` behaves identically in the DEBUG and non-DEBUG builds:
same returned pointer, and the same state apart from the ledger. -/
theorem allocate_erase {C : Nat} (al sz : Nat) (ty : String)
    (init : Nat → Nat) (a : Arena C) :
    (allocate al sz ty init a).1 = (allocateND al sz init (erase a)).1 ∧
      erase (allocate al sz ty init a).2 = (allocateND al sz init (erase a)).2 := by
  simp only [allocate, allocateND, erase]
  by_cases hc : a.m_used + pad al (a.base + a.m_used) + sz > C
  · rw [if_pos hc, if_pos hc]
    exact ⟨rfl, rfl⟩
  · rw [if_neg hc, if_neg hc]
    exact ⟨rfl, rfl⟩

/-- Unfolding equation of `runOut` on a leading `alloc`. -/
theorem runOut_cons_alloc {C : Nat} (a : Arena C) (al sz : Nat) (ty : String)
    (init : Nat → Nat) (rest : List Op) :
    runOut a (Op.alloc al sz ty init :: rest)
      = ((allocate al sz ty init a).1
            :: (runOut (allocate al sz ty init a).2 rest).1,
          (runOut (allocate al sz ty init a).2 rest).2) := rfl

/-- Unfolding equation of `runOut` on a leading `reset`. -/
theorem runOut_cons_reset {C : Nat} (a : Arena C) (rest : List Op) :
    runOut a (Op.reset :: rest) = runOut (reset a) rest := rfl

/-- Unfolding equation of `runOutND` on a leading `alloc`. -/
theorem runOutND_cons_alloc {C : Nat} (a : ArenaND C) (al sz : Nat)
    (ty : String) (init : Nat → Nat) (rest : List Op) :
    runOutND a (Op.alloc al sz ty init :: rest)
      = ((allocateND al sz init a).1
            :: (runOutND (allocateND al sz init a).2 rest).1,
          (runOutND (allocateND al sz init a).2 rest).2) := rfl

/-- Unfolding equation of `runOutND` on a leading `reset`. -/
theorem runOutND_cons_reset {C : Nat} (a : ArenaND C) (rest : List Op) :
    runOutND a (Op.reset :: rest) = runOutND (resetND a) rest := rfl

/-- C9: the debug ledger never influences allocation decisions.  For every
sequence of calls from any state, the DEBUG and non-DEBUG builds return
identical pointers (so identical success/failure outcomes and object
offsets) and end in identical states apart from the ledger itself —
identical `m_used` values in particular. -/
theorem C9_ledger_no_influence (C : Nat) (a : Arena C) (ops : List Op) :
    (runOut a ops).1 = (runOutND (erase a) ops).1 ∧
      erase (runOut a ops).2 = (runOutND (erase a) ops).2 := by
  induction ops generalizing a with
  | nil => exact ⟨rfl, rfl⟩
  | cons op rest ih =>
      cases op with
      | alloc al sz ty init =>
          obtain ⟨h1, h2⟩ := allocate_erase al sz ty init a
          obtain ⟨i1, i2⟩ := ih (allocate al sz ty init a).2
          rw [runOut_cons_alloc, runOutND_cons_alloc, ← h2]
          exact ⟨by rw [h1, i1], i2⟩
      | reset =>
          have he : erase (reset a) = resetND (erase a) := rfl
          rw [runOut_cons_reset, runOutND_cons_reset, ← he]
          exact ih (reset a)

/-- `allocate` writes only the object's own byte region
`[used + padding, used + padding + sizeof(T))`: every other buffer offset
keeps its previous contents (and a failing call writes nothing). -/
theorem allocate_buffer_frame {C : Nat} (al sz : Nat) (ty : String)
    (init : Nat → Nat) (a : Arena C) (i : Nat)
    (h : i < a.m_used + pad al (a.base + a.m_used)
        ∨ a.m_used + pad al (a.base + a.m_used) + sz ≤ i) :
    (allocate al sz ty init a).2.buffer i = a.buffer i := by
  simp only [allocate]
  split
  · rfl
  · show (if a.m_used + pad al (a.base + a.m_used) ≤ i
            ∧ i < a.m_used + pad al (a.base + a.m_used) + sz then init i
          else a.buffer i) = a.buffer i
    rw [if_neg (by omega)]

/-- C10: `reset()` modifies only the used offset — the buffer's contents,
the buffer's address and even the ledger are untouched — so data written
by the previous generation remains readable at its old offsets until a
subsequent allocation's construction overwrites its region. -/
theorem C10_reset_buffer_frame (C : Nat) (a : Arena C) :
    (reset a).buffer = a.buffer ∧ (reset a).base = a.base ∧
      (reset a).m_allocations = a.m_allocations ∧ (reset a).m_used = 0 ∧
      ∀ (al sz : Nat) (ty : String) (init : Nat → Nat) (i : Nat),
        i < pad al a.base ∨ pad al a.base + sz ≤ i →
          (allocate al sz ty init (reset a)).2.buffer i = a.buffer i := by
  refine ⟨rfl, rfl, rfl, rfl, ?_⟩
  intro al sz ty init i h
  refine allocate_buffer_frame al sz ty init (reset a) i ?_
  show i < 0 + pad al (a.base + 0) ∨ 0 + pad al (a.base + 0) + sz ≤ i
  simpa using h

end ArenaAlloc
